import Mathlib

/-
Verification of the dialogue-progression engine of the voice-driven
medical-intake chatbot.

Shallow embedding of:
  - src/app/page.tsx      (handleSendMessage, handleCompleteQuestionnaire)
  - src/lib/openai.ts     (analyzeUserAnswer, generateAIResponse,
                           generateSummary, conversation-history cleaning)
  - src/unnamed/part_000  (saveSession, getSession  -- the session store)

Free text is modelled as `List Char` (one element per Unicode code point);
JavaScript strings are UTF-16 but every text operation the engine performs
(whitespace tests, prefix truncation) is modelled at code-point granularity.
Wall-clock derived fields of the source records (message ids, timestamps)
are environment noise that no claim mentions and are omitted.
-/

namespace AiChatAvatar

abbrev Txt := List Char

/-- Message role in the transcript ('user' | 'assistant' in the source). -/
inductive Role where
  | user
  | assistant
deriving DecidableEq

/-- One transcript entry; the source ChatMessage also carries a clock-derived
id, a timestamp and an optional emotion tag, all unused by the claims. -/
structure ChatMessage where
  role : Role
  content : Txt
deriving DecidableEq

/-- A questionnaire question (id + text are the fields the engine reads). -/
structure Question where
  id : String
  text : String
deriving DecidableEq

/-- One recorded answer in the session (source also stores a clock id and
timestamp). -/
structure Answer where
  questionId : String
  questionText : String
  answer : Txt
deriving DecidableEq

/-- Confidence grade of an extracted answer. -/
inductive Confidence where
  | high
  | medium
  | low
deriving DecidableEq

/-- One best-answer-per-question record produced by the summary pass. -/
structure FormattedAnswer where
  questionId : String
  questionText : String
  extractedAnswer : String
  confidence : Confidence
deriving DecidableEq

/-- The persisted session record (src/types via page.tsx / part_000). -/
structure Session where
  sessionId : String
  questionnaireId : String
  createdAt : Nat
  answers : List Answer
  currentQuestionIndex : Nat
  isCompleted : Bool
  answeredQuestionIds : List String
  formattedAnswers : Option (List FormattedAnswer)
  summary : Option String
deriving DecidableEq

/-- Result of the coverage-classification oracle call (src/types
AnalysisResponse). -/
structure AnalysisResponse where
  answeredQuestions : List String
deriving DecidableEq

/-- Result of the sufficiency-judgment oracle call (src/types LLMResponse,
two-stage variant of src/lib/openai.ts). -/
structure LLMResponse where
  reply : Txt
  emotion : String
  needMoreInfo : Bool
  isComplete : Bool
deriving DecidableEq

/-- Result of the summarization oracle call (SummaryResponse in
src/lib/openai.ts). -/
structure SummaryResponse where
  formattedAnswers : List FormattedAnswer
  summary : String
deriving DecidableEq

/-! ## Whitespace utilities

src/lib/openai.ts repeatedly uses one regex whitespace character class:
CR, LF, TAB, FF, VT, U+0020, U+00A0, U+1680, U+2000..U+200A, U+2028,
U+2029, U+202F, U+205F, U+3000, U+FEFF.  `jsWs` is exactly that class.
`unicodeWs` is the genuine Unicode White_Space property (it additionally
contains U+0085 NEL and does not contain U+FEFF). -/

/-- The whitespace character class of the source regexes. -/
def jsWs (c : Char) : Bool :=
  c == '\u000d' || c == '\u000a' || c == '\u0009' || c == '\u000c' ||
  c == '\u000b' || c == '\u0020' || c == '\u00a0' || c == '\u1680' ||
  (decide ('\u2000' ≤ c) && decide (c ≤ '\u200a')) ||
  c == '\u2028' || c == '\u2029' || c == '\u202f' || c == '\u205f' ||
  c == '\u3000' || c == '\ufeff'

/-- The Unicode White_Space property (the "full Unicode whitespace
classes" of the specification). -/
def unicodeWs (c : Char) : Bool :=
  (decide ('\u0009' ≤ c) && decide (c ≤ '\u000d')) ||
  c == '\u0020' || c == '\u0085' || c == '\u00a0' || c == '\u1680' ||
  (decide ('\u2000' ≤ c) && decide (c ≤ '\u200a')) ||
  c == '\u2028' || c == '\u2029' || c == '\u202f' || c == '\u205f' ||
  c == '\u3000'

/-- `text.replace(wsRegex, '')` : every whitespace run is replaced by the
empty string, i.e. all whitespace characters are removed; the `.trim()`
that follows in the source is then a no-op. -/
def removeWs (t : Txt) : Txt :=
  t.filter (fun c => !jsWs c)

/-- Worker for `collapseWs`; the flag records whether the previous
character was whitespace (so that a whole run yields one space). -/
def collapseWsAux : Bool → Txt → Txt
  | _, [] => []
  | prevWs, c :: cs =>
    if jsWs c then
      if prevWs then collapseWsAux true cs
      else ' ' :: collapseWsAux true cs
    else c :: collapseWsAux false cs

/-- `text.replace(wsRegex, ' ')` : every maximal whitespace run becomes a
single space. -/
def collapseWs (t : Txt) : Txt :=
  collapseWsAux false t

/-- `.trim()` applied after `collapseWs`: the only whitespace characters
left are plain spaces, so trimming drops leading/trailing spaces. -/
def trimSpaces (t : Txt) : Txt :=
  ((t.dropWhile (fun c => c == ' ')).reverse.dropWhile (fun c => c == ' ')).reverse

/-! ## Session store (src/unnamed/part_000)

`localStorage` holds a JSON list of sessions; `saveSession` does
`findIndex` on sessionId, replaces in place when found, pushes otherwise.
The recursion below replaces the first entry with a matching id and
appends at the end when there is none, which is exactly that behaviour. -/

/-- saveSession: replace the first session with the same sessionId, or
append. -/
def saveSession (session : Session) : List Session → List Session
  | [] => [session]
  | s :: rest =>
    if s.sessionId = session.sessionId then session :: rest
    else s :: saveSession session rest

/-- getSession: first session with the given id, if any. -/
def getSession (sessionId : String) (sessions : List Session) : Option Session :=
  sessions.find? (fun s => s.sessionId == sessionId)

/-! ## Coverage classification client: analyzeUserAnswer (src/lib/openai.ts)

The function performs a single fetch.  Whatever goes wrong (non-ok HTTP
status making it throw, network failure, unexpected response structure,
JSON.parse failure) is caught by its one try/catch, which returns an
empty coverage list.  There is no retry loop in this function.  The
outcome of the one attempt is an environment input; the second component
of the result counts the HTTP attempts performed (always one). -/

/-- Outcome of the single coverage-classification HTTP attempt.
`payload` carries the result of `JSON.parse` on the response text followed
by reading `.answeredQuestions` (`none` when parsing threw or the field
was absent/falsy, in which case the source substitutes `[]`). -/
inductive CovAttempt where
  | httpError (status : Nat)
  | fetchError
  | otherError
  | badPayload
  | payload (answeredQuestions : Option (List String))
deriving DecidableEq

/-- analyzeUserAnswer: one attempt, empty coverage on any failure.
Result: the AnalysisResponse and the number of HTTP attempts made. -/
def analyzeUserAnswer (attempt : CovAttempt) : AnalysisResponse × Nat :=
  (match attempt with
   | CovAttempt.payload answered => ⟨answered.getD []⟩
   | _ => ⟨[]⟩, 1)

/-! ## Sufficiency judgment client: generateAIResponse (src/lib/openai.ts)

This function has the retry loop: `for attempt in 0..MAX_RETRIES`.
Retried (via `continue`): HTTP 429, HTTP >= 500, a network TypeError from
fetch, a response with missing choices/message, a null/empty content, a
content that is whitespace-only (fewer than 5 characters once all
whitespace is removed), a JSON parse failure, a missing `reply` field and
a whitespace-only `reply`.  Any other thrown error hits the `break` and
fails immediately.  After the loop a fixed fallback reply is returned
with needMoreInfo = true. -/

/-- The JSON object extracted from the oracle's text, field-by-field as
the source reads it (each field may be absent). -/
structure LLMJson where
  reply : Option Txt
  emotion : Option String
  needMoreInfo : Option Bool
  isComplete : Option Bool
deriving DecidableEq

/-- Raw oracle message content together with the result of the source's
brace-extraction + JSON.parse on it (`none` when parsing threw). -/
structure RawContent where
  raw : Txt
  parsed : Option LLMJson
deriving DecidableEq

/-- Outcome of one sufficiency-judgment HTTP attempt. -/
inductive SuffAttempt where
  | httpError (status : Nat)
  | fetchError
  | otherError
  | badStructure
  | nullContent
  | content (c : RawContent)
deriving DecidableEq

/-- What one loop iteration decides to do with an attempt's outcome. -/
inductive AttemptOutcome where
  | success (r : LLMResponse)
  | retry
  | abort
deriving DecidableEq

/-- One iteration of the generateAIResponse retry loop, after the fetch
resolved to `a`. -/
def classifyAttempt (a : SuffAttempt) : AttemptOutcome :=
  match a with
  | SuffAttempt.httpError status =>
    if status = 429 ∨ 500 ≤ status then AttemptOutcome.retry
    else AttemptOutcome.abort
  | SuffAttempt.fetchError => AttemptOutcome.retry
  | SuffAttempt.otherError => AttemptOutcome.abort
  | SuffAttempt.badStructure => AttemptOutcome.retry
  | SuffAttempt.nullContent => AttemptOutcome.retry
  | SuffAttempt.content c =>
    let cleanedText := removeWs c.raw
    if cleanedText.length < 5 then AttemptOutcome.retry
    else
      match c.parsed with
      | none => AttemptOutcome.retry
      | some j =>
        match j.reply with
        | none => AttemptOutcome.retry
        | some rep =>
          let replyClean := trimSpaces (collapseWs rep)
          if replyClean.length < 2 then AttemptOutcome.retry
          else
            AttemptOutcome.success
              { reply := rep
                emotion := j.emotion.getD "gentle"
                needMoreInfo := j.needMoreInfo.getD true
                isComplete := j.isComplete.getD false }

/-- MAX_RETRIES of src/lib/openai.ts. -/
def MAX_RETRIES : Nat := 2

/-- The fixed fallback returned after all retries fail. -/
def fallbackLLM : LLMResponse :=
  { reply := "申し訳ございません。通信エラーが発生しました。もう一度お願いできますか？".data
    emotion := "gentle"
    needMoreInfo := true
    isComplete := false }

/-- The retry loop of generateAIResponse.  `budget` is structural fuel
(the loop body runs at most MAX_RETRIES + 1 times); `attempt` is the
loop counter of the source. -/
def generateAIResponseLoop (oracle : Nat → SuffAttempt) : Nat → Nat → LLMResponse × Nat
  | 0, attempt => (fallbackLLM, attempt)
  | budget + 1, attempt =>
    match classifyAttempt (oracle attempt) with
    | AttemptOutcome.success r => (r, attempt + 1)
    | AttemptOutcome.abort => (fallbackLLM, attempt + 1)
    | AttemptOutcome.retry =>
      if attempt < MAX_RETRIES then generateAIResponseLoop oracle budget (attempt + 1)
      else (fallbackLLM, attempt + 1)

/-- generateAIResponse: run the loop from attempt 0.  `oracle n` is the
environment's outcome for the n-th HTTP attempt.  Result: the response
and the number of HTTP attempts made. -/
def generateAIResponse (oracle : Nat → SuffAttempt) : LLMResponse × Nat :=
  generateAIResponseLoop oracle (MAX_RETRIES + 1) 0

/-! ## Conversation-history cleaning (src/lib/openai.ts lines 144-161)

Before calling the sufficiency oracle, generateAIResponse keeps only the
most recent `maxHistoryLength` turns, drops turns whose text is
whitespace-only under the source's whitespace class, and truncates each
remaining text to 200 characters appending a "..." marker. -/

/-- maxHistoryLength of the two-stage generateAIResponse. -/
def maxHistoryLength : Nat := 10

/-- `conversationHistory.slice(-maxHistoryLength)` guarded by a length
check, exactly as in the source. -/
def trimmedHistory (h : List ChatMessage) : List ChatMessage :=
  if h.length > maxHistoryLength then h.drop (h.length - maxHistoryLength) else h

/-- The filter predicate: collapse whitespace runs to single spaces, trim,
keep the turn iff something is left. -/
def keptTurn (t : Txt) : Bool :=
  decide (0 < (trimSpaces (collapseWs t)).length)

/-- `content.length > 200 ? content.substring(0, 200) + '...' : content`. -/
def truncateMsg (m : ChatMessage) : ChatMessage :=
  if m.content.length > 200 then
    { m with content := m.content.take 200 ++ "...".data }
  else m

/-- The cleaned history handed to the sufficiency oracle. -/
def cleanedHistory (h : List ChatMessage) : List ChatMessage :=
  ((trimmedHistory h).filter (fun m => keptTurn m.content)).map truncateMsg

/-! ## Summary client: generateSummary (src/lib/openai.ts)

A single fetch inside one try/catch.  On success the parsed JSON is
returned as-is (`return parsed as SummaryResponse` — no validation of
length, ids or answer texts).  On any thrown error the deterministic
fallback is returned: one sentinel FormattedAnswer per bank question with
low confidence. -/

/-- Outcome of the single summarization attempt. -/
inductive SummaryAttempt where
  | failure
  | success (r : SummaryResponse)
deriving DecidableEq

/-- The sentinel extracted answer used by the fallback. -/
def extractionFailedText : String := "回答の抽出に失敗しました"

/-- The fixed fallback narrative string. -/
def summaryFailedText : String := "要約の生成に失敗しました。"

/-- generateSummary over the question bank, the conversation history (only
fed to the oracle) and the attempt outcome. -/
def generateSummary (questions : List Question) (_history : List ChatMessage)
    (attempt : SummaryAttempt) : SummaryResponse :=
  match attempt with
  | SummaryAttempt.success r => r
  | SummaryAttempt.failure =>
    { formattedAnswers := questions.map (fun q =>
        { questionId := q.id
          questionText := q.text
          extractedAnswer := extractionFailedText
          confidence := Confidence.low })
      summary := summaryFailedText }

/-! ## Completion: handleCompleteQuestionnaire (src/app/page.tsx)

Unconditionally calls generateSummary, marks the session completed,
installs the returned formattedAnswers/summary and persists.  There is no
guard against the session being already completed or already holding a
summary.  (generateSummary is total — it returns its fallback instead of
throwing — so the catch branch of the source is dead code.)  The second
component counts the summarizer invocations performed by this call. -/

def handleCompleteQuestionnaire (session : Session) (questions : List Question)
    (history : List ChatMessage) (attempt : SummaryAttempt) : Session × Nat :=
  let summaryResult := generateSummary questions history attempt
  ({ session with
      isCompleted := true
      formattedAnswers := some summaryResult.formattedAnswers
      summary := some summaryResult.summary }, 1)

/-! ## Dialogue engine: handleSendMessage (src/app/page.tsx)

One turn of the engine, over the oracle results already resolved
(`analysis` from analyzeUserAnswer — which never throws — and `ai` from
generateAIResponse — which never throws either, returning `fallbackLLM`
on total failure).  The step records the saveSession snapshots it made
and how many times it invoked handleCompleteQuestionnaire. -/

/-- In-memory state of one running interview (the relevant React state of
src/app/page.tsx: the questionnaire, the chat log, the session record and
the question pointer). -/
structure EngineState where
  questionnaire : List Question
  messages : List ChatMessage
  session : Session
  currentQuestionIndex : Nat
deriving DecidableEq

/-- Result of one handleSendMessage turn: the new state, the saveSession
snapshots persisted during the turn (in order), and the number of
completion (summarization) triggers fired. -/
structure StepResult where
  state : EngineState
  saves : List Session
  summaryTriggers : Nat
deriving DecidableEq

/-- The error reply appended by the catch block of handleSendMessage. -/
def errorReply : Txt :=
  "申し訳ございません。エラーが発生しました。もう一度お願いできますか？".data

/-- One iteration group of the coverage-integration forEach: skip ids
already collected; otherwise record the id and, when it is not the
current question but is a bank question, also record a synthetic answer
attributing the utterance to it. -/
def coverageFold (questions : List Question) (currentId : String) (content : Txt)
    (acc : List String × List Answer) (qId : String) : List String × List Answer :=
  if qId ∈ acc.1 then acc
  else
    (acc.1 ++ [qId],
     if qId ≠ currentId then
       match questions.find? (fun q => q.id == qId) with
       | some q => acc.2 ++ [⟨qId, q.text, content⟩]
       | none => acc.2
     else acc.2)

/-- Worker for findNext: scan the suffix of the bank for the first
question whose id is not answered, returning its absolute index (`n` is
the index of the head of `l` in the bank). -/
def findNextAux (answeredIds : List String) : List Question → Nat → Nat
  | [], n => n
  | q :: rest, n =>
    if q.id ∈ answeredIds then findNextAux answeredIds rest (n + 1) else n

/-- The `while` loop of handleSendMessage: smallest index ≥ n whose
question id is unanswered (the bank length when there is none). -/
def findNext (questions : List Question) (answeredIds : List String) (n : Nat) : Nat :=
  findNextAux answeredIds (questions.drop n) n

/-- One turn of handleSendMessage while a session is active.  When the
question pointer is out of range the source throws on
`questions[currentQuestionIndex].id` before saving anything and the catch
block appends the error reply. -/
def handleSendMessage (st : EngineState) (content : Txt)
    (analysis : AnalysisResponse) (ai : LLMResponse) : StepResult :=
  let userMessage : ChatMessage := ⟨Role.user, content⟩
  match st.questionnaire.get? st.currentQuestionIndex with
  | none =>
    { state := { st with
        messages := st.messages ++ [userMessage, ⟨Role.assistant, errorReply⟩] }
      saves := []
      summaryTriggers := 0 }
  | some currentQuestion =>
    let session1 : Session :=
      { st.session with
          answers := st.session.answers ++
            [⟨currentQuestion.id, currentQuestion.text, content⟩]
          currentQuestionIndex := st.currentQuestionIndex }
    let totalQuestions := st.questionnaire.length
    let isLastQuestion : Bool := decide (st.currentQuestionIndex + 1 ≥ totalQuestions)
    let folded := analysis.answeredQuestions.foldl
      (coverageFold st.questionnaire currentQuestion.id content)
      (session1.answeredQuestionIds, session1.answers)
    let session2 : Session :=
      if 0 < analysis.answeredQuestions.length then
        { session1 with answeredQuestionIds := folded.1, answers := folded.2 }
      else session1
    let saves : List Session :=
      if 0 < analysis.answeredQuestions.length then [session1, session2] else [session1]
    let messages2 := st.messages ++ [userMessage, ⟨Role.assistant, ai.reply⟩]
    let advanced : Nat × Nat :=
      if ai.needMoreInfo then (st.currentQuestionIndex, 0)
      else
        let nextIndex :=
          findNext st.questionnaire session2.answeredQuestionIds
            (st.currentQuestionIndex + 1)
        if nextIndex ≥ totalQuestions then (st.currentQuestionIndex, 1)
        else (nextIndex, 0)
    let trig2 : Nat := if isLastQuestion && ai.isComplete then 1 else 0
    { state := { st with
        messages := messages2
        session := session2
        currentQuestionIndex := advanced.1 }
      saves := saves
      summaryTriggers := advanced.2 + trig2 }

/-- The answered-id set after the coverage-integration step of a turn
(identical to the fold inside handleSendMessage). -/
def postAnsweredIds (st : EngineState) (content : Txt)
    (analysis : AnalysisResponse) : List String :=
  match st.questionnaire.get? st.currentQuestionIndex with
  | none => st.session.answeredQuestionIds
  | some currentQuestion =>
    (analysis.answeredQuestions.foldl
      (coverageFold st.questionnaire currentQuestion.id content)
      (st.session.answeredQuestionIds,
       st.session.answers ++
         [⟨currentQuestion.id, currentQuestion.text, content⟩])).1

/-- The per-turn environment: the utterance and the two resolved oracle
results. -/
structure TurnInput where
  content : Txt
  analysis : AnalysisResponse
  ai : LLMResponse

/-- Iterated turns of one session. -/
def runTurns : EngineState → List TurnInput → EngineState
  | st, [] => st
  | st, t :: ts => runTurns (handleSendMessage st t.content t.analysis t.ai).state ts

/-! ## Concrete fixtures used by witnesses and counterexamples -/

def q1 : Question := ⟨"Q1", "昨夜はよく眠れましたか？"⟩

def q2 : Question := ⟨"Q2", "食欲はありますか？"⟩

def q3 : Question := ⟨"Q3", "他に気になる症状はありますか？"⟩

def freshSession : Session :=
  ⟨"session-1", "questionnaire-1", 0, [], 0, false, [], none, none⟩

def twoQuestionState : EngineState := ⟨[q1, q2], [], freshSession, 0⟩

def threeQuestionState : EngineState := ⟨[q1, q2, q3], [], freshSession, 0⟩

def sleeplessUtterance : Txt := "2時間しか眠れず食欲もありません".data

def insufficientVerdict : LLMResponse :=
  ⟨"それぞれいつ頃からですか？".data, "gentle", true, false⟩

def sufficientVerdict : LLMResponse :=
  ⟨"わかりました。ありがとうございます。".data, "gentle", false, false⟩

def coverageBoth : AnalysisResponse := ⟨["Q1", "Q2"]⟩

def coverageSecond : AnalysisResponse := ⟨["Q2"]⟩

def bogusCoverage : AnalysisResponse := ⟨["BOGUS"]⟩

def firstSummaryAnswers : List FormattedAnswer :=
  [⟨"Q1", q1.text, "2時間", Confidence.high⟩,
   ⟨"Q2", q2.text, "食欲なし", Confidence.high⟩]

def completedSession : Session :=
  ⟨"session-2", "questionnaire-1", 0, [], 1, true, ["Q1", "Q2"],
   some firstSummaryAnswers, some "最初の要約"⟩

def secondSummary : SummaryResponse :=
  ⟨[⟨"Q1", q1.text, "3時間", Confidence.medium⟩,
    ⟨"Q2", q2.text, "食欲あり", Confidence.low⟩], "二回目の要約"⟩

def nelMessage : ChatMessage := ⟨Role.user, ['\u0085']⟩

def helloMessage : ChatMessage := ⟨Role.user, "こんにちは".data⟩

def storeSessionA : Session :=
  ⟨"session-A", "questionnaire-1", 0, [], 0, false, [], none, none⟩

def storeSessionA2 : Session :=
  ⟨"session-A", "questionnaire-1", 5, [], 2, true, ["Q1"], none, some "done"⟩

def storeSessionB : Session :=
  ⟨"session-B", "questionnaire-1", 0, [], 0, false, [], none, none⟩

/-! ## Helper lemmas -/

lemma get?_drop {α : Type} : ∀ (l : List α) (n m : Nat), (l.drop n).get? m = l.get? (n + m) := by
  intro l
  induction l with
  | nil => intro n m; simp
  | cons a rest ih =>
    intro n m
    cases n with
    | zero => simp
    | succ n => simp [Nat.succ_add, ih n m]

lemma drop_eq_cons_of_get? {α : Type} : ∀ (l : List α) (n : Nat) (a : α),
    l.get? n = some a → l.drop n = a :: l.drop (n + 1) := by
  intro l
  induction l with
  | nil => intro n a h; simp at h
  | cons b rest ih =>
    intro n a h
    cases n with
    | zero => simp at h; simp [h]
    | succ n =>
      simp only [List.get?_cons_succ] at h
      simpa using ih n a h

lemma findNextAux_ge (ids : List String) :
    ∀ (l : List Question) (n : Nat), n ≤ findNextAux ids l n := by
  intro l
  induction l with
  | nil => intro n; simp [findNextAux]
  | cons q rest ih =>
    intro n
    by_cases h : q.id ∈ ids
    · calc n ≤ n + 1 := Nat.le_succ n
        _ ≤ findNextAux ids rest (n + 1) := ih (n + 1)
        _ = findNextAux ids (q :: rest) n := by simp [findNextAux, h]
    · simp [findNextAux, h]

lemma findNext_ge (qs : List Question) (ids : List String) (n : Nat) :
    n ≤ findNext qs ids n :=
  findNextAux_ge ids (qs.drop n) n

lemma findNext_succ_of_mem (qs : List Question) (ids : List String) (n : Nat)
    (q : Question) (hq : qs.get? n = some q) (hmem : q.id ∈ ids) :
    findNext qs ids n = findNext qs ids (n + 1) := by
  unfold findNext
  rw [drop_eq_cons_of_get? qs n q hq]
  simp [findNextAux, hmem]

lemma findNext_eq_self (qs : List Question) (ids : List String) (n : Nat)
    (q : Question) (hq : qs.get? n = some q) (hmem : q.id ∉ ids) :
    findNext qs ids n = n := by
  unfold findNext
  rw [drop_eq_cons_of_get? qs n q hq]
  simp [findNextAux, hmem]

lemma findNext_eq_of_least (qs : List Question) (ids : List String) (qj : Question) :
    ∀ (d n j : Nat), j - n = d → n ≤ j → qs.get? j = some qj → qj.id ∉ ids →
      (∀ k qk, n ≤ k → k < j → qs.get? k = some qk → qk.id ∈ ids) →
      findNext qs ids n = j := by
  intro d
  induction d with
  | zero =>
    intro n j hd hle hj hnot _
    have hnj : n = j := by omega
    subst hnj
    exact findNext_eq_self qs ids n qj hj hnot
  | succ d ih =>
    intro n j hd hle hj hnot hmid
    have hnj : n < j := by omega
    have hjlt : j < qs.length := by
      obtain ⟨h, -⟩ := List.get?_eq_some.mp hj
      exact h
    have hn : n < qs.length := by omega
    have hqn : qs.get? n = some (qs.get ⟨n, hn⟩) := List.get?_eq_get hn
    have hmemn : (qs.get ⟨n, hn⟩).id ∈ ids :=
      hmid n (qs.get ⟨n, hn⟩) (Nat.le_refl n) hnj hqn
    rw [findNext_succ_of_mem qs ids n (qs.get ⟨n, hn⟩) hqn hmemn]
    exact ih (n + 1) j (by omega) (by omega) hj hnot
      (fun k qk hk1 hk2 hk3 => hmid k qk (by omega) hk2 hk3)

lemma findNextAux_all_mem (ids : List String) :
    ∀ (l : List Question) (n : Nat), (∀ q ∈ l, q.id ∈ ids) →
      findNextAux ids l n = n + l.length := by
  intro l
  induction l with
  | nil => intro n _; simp [findNextAux]
  | cons q rest ih =>
    intro n h
    have hq : q.id ∈ ids := h q (List.mem_cons_self q rest)
    have hrest : ∀ p ∈ rest, p.id ∈ ids := fun p hp => h p (List.mem_cons_of_mem q hp)
    simp [findNextAux, hq, ih (n + 1) hrest]
    omega

lemma findNext_ge_length_of_all (qs : List Question) (ids : List String) (n : Nat)
    (h : ∀ k qk, n ≤ k → qs.get? k = some qk → qk.id ∈ ids) :
    qs.length ≤ findNext qs ids n := by
  have hall : ∀ q ∈ qs.drop n, q.id ∈ ids := by
    intro q hq
    obtain ⟨m, hm⟩ := List.mem_iff_get?.mp hq
    rw [get?_drop] at hm
    exact h (n + m) q (Nat.le_add_right n m) hm
  unfold findNext
  rw [findNextAux_all_mem ids (qs.drop n) n hall, List.length_drop]
  omega

lemma step_answeredIds (st : EngineState) (content : Txt)
    (analysis : AnalysisResponse) (ai : LLMResponse) :
    (handleSendMessage st content analysis ai).state.session.answeredQuestionIds
      = postAnsweredIds st content analysis := by
  unfold handleSendMessage postAnsweredIds
  cases hcq : st.questionnaire.get? st.currentQuestionIndex with
  | none => simp
  | some cq =>
    by_cases h0 : 0 < analysis.answeredQuestions.length
    · simp [h0]
    · have he : analysis.answeredQuestions = [] := List.length_eq_zero.mp (by omega)
      simp [he]

lemma step_index_of_insufficient (st : EngineState) (content : Txt)
    (analysis : AnalysisResponse) (ai : LLMResponse)
    (hne : ai.needMoreInfo = true) :
    (handleSendMessage st content analysis ai).state.currentQuestionIndex
      = st.currentQuestionIndex := by
  unfold handleSendMessage
  cases hcq : st.questionnaire.get? st.currentQuestionIndex with
  | none => simp
  | some cq => simp [hne]

lemma step_index_of_sufficient (st : EngineState) (content : Txt)
    (analysis : AnalysisResponse) (ai : LLMResponse) (cq : Question)
    (hcq : st.questionnaire.get? st.currentQuestionIndex = some cq)
    (hsuff : ai.needMoreInfo = false) :
    (handleSendMessage st content analysis ai).state.currentQuestionIndex
      = (if st.questionnaire.length ≤
            findNext st.questionnaire (postAnsweredIds st content analysis)
              (st.currentQuestionIndex + 1)
         then st.currentQuestionIndex
         else findNext st.questionnaire (postAnsweredIds st content analysis)
            (st.currentQuestionIndex + 1)) := by
  unfold handleSendMessage postAnsweredIds
  rw [hcq]
  by_cases h0 : 0 < analysis.answeredQuestions.length
  · simp [h0, hsuff, ge_iff_le]
    split <;> rfl
  · have he : analysis.answeredQuestions = [] := List.length_eq_zero.mp (by omega)
    simp [he, hsuff, ge_iff_le]
    split <;> rfl

lemma step_triggers_some (st : EngineState) (content : Txt)
    (analysis : AnalysisResponse) (ai : LLMResponse) (cq : Question)
    (hcq : st.questionnaire.get? st.currentQuestionIndex = some cq) :
    (handleSendMessage st content analysis ai).summaryTriggers
      = (if ai.needMoreInfo then 0
         else if st.questionnaire.length ≤
            findNext st.questionnaire (postAnsweredIds st content analysis)
              (st.currentQuestionIndex + 1)
         then 1 else 0)
        + (if decide (st.questionnaire.length ≤ st.currentQuestionIndex + 1)
             && ai.isComplete then 1 else 0) := by
  unfold handleSendMessage postAnsweredIds
  rw [hcq]
  by_cases h0 : 0 < analysis.answeredQuestions.length
  · by_cases hne : ai.needMoreInfo
    · simp [h0, hne, ge_iff_le]
    · simp [h0, hne, ge_iff_le]
      split <;> rfl
  · have he : analysis.answeredQuestions = [] := List.length_eq_zero.mp (by omega)
    by_cases hne : ai.needMoreInfo
    · simp [he, hne, ge_iff_le]
    · simp [he, hne, ge_iff_le]
      split <;> rfl

lemma step_saves_ne_nil (st : EngineState) (content : Txt)
    (analysis : AnalysisResponse) (ai : LLMResponse) (cq : Question)
    (hcq : st.questionnaire.get? st.currentQuestionIndex = some cq) :
    (handleSendMessage st content analysis ai).saves ≠ [] := by
  unfold handleSendMessage
  rw [hcq]
  by_cases h0 : 0 < analysis.answeredQuestions.length <;> simp [h0]

lemma step_messages_some (st : EngineState) (content : Txt)
    (analysis : AnalysisResponse) (ai : LLMResponse) (cq : Question)
    (hcq : st.questionnaire.get? st.currentQuestionIndex = some cq) :
    (handleSendMessage st content analysis ai).state.messages
      = st.messages ++ [⟨Role.user, content⟩, ⟨Role.assistant, ai.reply⟩] := by
  unfold handleSendMessage
  rw [hcq]

lemma step_index_mono (st : EngineState) (content : Txt)
    (analysis : AnalysisResponse) (ai : LLMResponse) :
    st.currentQuestionIndex
      ≤ (handleSendMessage st content analysis ai).state.currentQuestionIndex := by
  cases hne : ai.needMoreInfo with
  | true => rw [step_index_of_insufficient st content analysis ai hne]
  | false =>
    cases hcq : st.questionnaire.get? st.currentQuestionIndex with
    | none =>
      unfold handleSendMessage
      rw [hcq]
    | some cq =>
      rw [step_index_of_sufficient st content analysis ai cq hcq hne]
      split
      · exact Nat.le_refl _
      · calc st.currentQuestionIndex ≤ st.currentQuestionIndex + 1 := Nat.le_succ _
          _ ≤ _ := findNext_ge _ _ _

lemma runTurns_index_mono : ∀ (ts : List TurnInput) (st : EngineState),
    st.currentQuestionIndex ≤ (runTurns st ts).currentQuestionIndex := by
  intro ts
  induction ts with
  | nil => intro st; exact Nat.le_refl _
  | cons t rest ih =>
    intro st
    calc st.currentQuestionIndex
        ≤ (handleSendMessage st t.content t.analysis t.ai).state.currentQuestionIndex :=
          step_index_mono st t.content t.analysis t.ai
      _ ≤ _ := ih _

lemma runTurns_append : ∀ (a b : List TurnInput) (st : EngineState),
    runTurns st (a ++ b) = runTurns (runTurns st a) b := by
  intro a
  induction a with
  | nil => intro b st; rfl
  | cons t rest ih => intro b st; simp [runTurns, ih]

lemma getSession_saveSession (s : Session) :
    ∀ l, getSession s.sessionId (saveSession s l) = some s := by
  intro l
  induction l with
  | nil => simp [saveSession, getSession]
  | cons a rest ih =>
    by_cases h : a.sessionId = s.sessionId
    · simp [saveSession, getSession, h]
    · simp [saveSession, getSession, h] at ih ⊢
      exact ih

lemma saveSession_length_of_exists (s : Session) :
    ∀ l, (∃ x ∈ l, x.sessionId = s.sessionId) → (saveSession s l).length = l.length := by
  intro l
  induction l with
  | nil => rintro ⟨x, hx, -⟩; simp at hx
  | cons a rest ih =>
    rintro ⟨x, hx, hid⟩
    by_cases h : a.sessionId = s.sessionId
    · simp [saveSession, h]
    · have hxr : x ∈ rest := by
        rcases List.mem_cons.mp hx with rfl | hxr
        · exact absurd hid h
        · exact hxr
      simp [saveSession, h, ih ⟨x, hxr, hid⟩]

lemma saveSession_of_forall_ne (s : Session) :
    ∀ l, (∀ x ∈ l, x.sessionId ≠ s.sessionId) → saveSession s l = l ++ [s] := by
  intro l
  induction l with
  | nil => intro _; rfl
  | cons a rest ih =>
    intro h
    have ha : a.sessionId ≠ s.sessionId := h a (List.mem_cons_self a rest)
    have hr : ∀ x ∈ rest, x.sessionId ≠ s.sessionId :=
      fun x hx => h x (List.mem_cons_of_mem a hx)
    simp [saveSession, ha, ih hr]

lemma saveSession_filter_ne (s : Session) :
    ∀ l, (saveSession s l).filter (fun x => !(x.sessionId == s.sessionId))
      = l.filter (fun x => !(x.sessionId == s.sessionId)) := by
  intro l
  induction l with
  | nil => simp [saveSession]
  | cons a rest ih =>
    by_cases h : a.sessionId = s.sessionId
    · simp [saveSession, h]
    · simp [saveSession, h, ih]

lemma coverageFold_ids_mem (qs : List Question) (cid : String) (content : Txt)
    (P : String → Prop) :
    ∀ (l : List String) (acc : List String × List Answer),
      (∀ a ∈ acc.1, P a) → (∀ a ∈ l, P a) →
      ∀ a ∈ (l.foldl (coverageFold qs cid content) acc).1, P a := by
  intro l
  induction l with
  | nil => intro acc hacc _ a ha; exact hacc a ha
  | cons x rest ih =>
    intro acc hacc hl a ha
    refine ih (coverageFold qs cid content acc x) ?_
      (fun b hb => hl b (List.mem_cons_of_mem x hb)) a ha
    intro b hb
    unfold coverageFold at hb
    by_cases hx : x ∈ acc.1
    · rw [if_pos hx] at hb
      exact hacc b hb
    · rw [if_neg hx] at hb
      rcases List.mem_append.mp hb with hb | hb
      · exact hacc b hb
      · have : b = x := by simpa using hb
        subst this
        exact hl b (List.mem_cons_self b rest)

lemma generateAIResponseLoop_attempts_le (o : Nat → SuffAttempt) :
    ∀ (b a : Nat), (generateAIResponseLoop o b a).2 ≤ a + b := by
  intro b
  induction b with
  | zero => intro a; simp [generateAIResponseLoop]
  | succ b ih =>
    intro a
    unfold generateAIResponseLoop
    split
    · simp
    · simp
    · split
      · calc (generateAIResponseLoop o b (a + 1)).2 ≤ (a + 1) + b := ih (a + 1)
          _ = a + (b + 1) := by omega
      · simp

lemma generateAIResponseLoop_attempts_ge (o : Nat → SuffAttempt) :
    ∀ (b a : Nat), a + 1 ≤ (generateAIResponseLoop o (b + 1) a).2 := by
  intro b
  induction b with
  | zero =>
    intro a
    unfold generateAIResponseLoop
    split
    · simp
    · simp
    · split <;> simp [generateAIResponseLoop]
  | succ b ih =>
    intro a
    unfold generateAIResponseLoop
    split
    · simp
    · simp
    · split
      · calc a + 1 ≤ (a + 1) + 1 := Nat.le_succ _
          _ ≤ (generateAIResponseLoop o (b + 1) (a + 1)).2 := ih (a + 1)
      · simp

lemma generateAIResponse_unfold (o : Nat → SuffAttempt) :
    generateAIResponse o =
      match classifyAttempt (o 0) with
      | AttemptOutcome.success r => (r, 1)
      | AttemptOutcome.abort => (fallbackLLM, 1)
      | AttemptOutcome.retry =>
        if 0 < MAX_RETRIES then generateAIResponseLoop o 2 1 else (fallbackLLM, 1) := rfl

lemma classify_httpError_server (status : Nat) (h : 500 ≤ status) :
    classifyAttempt (SuffAttempt.httpError status) = AttemptOutcome.retry := by
  simp only [classifyAttempt]
  rw [if_pos (Or.inr h)]

lemma classify_httpError_client (status : Nat) (h429 : status ≠ 429) (h5 : status < 500) :
    classifyAttempt (SuffAttempt.httpError status) = AttemptOutcome.abort := by
  simp only [classifyAttempt]
  rw [if_neg]
  rintro (h | h)
  · exact h429 h
  · omega

lemma classify_content_ws (c : RawContent) (h : ∀ ch ∈ c.raw, jsWs ch = true) :
    classifyAttempt (SuffAttempt.content c) = AttemptOutcome.retry := by
  have hnil : removeWs c.raw = [] := by
    unfold removeWs
    refine List.filter_eq_nil_iff.mpr ?_
    intro a ha
    simp [h a ha]
  simp only [classifyAttempt]
  simp [hnil]

lemma classify_content_unparsed (c : RawContent) (h : c.parsed = none) :
    classifyAttempt (SuffAttempt.content c) = AttemptOutcome.retry := by
  simp only [classifyAttempt, h]
  split <;> rfl

lemma collapseWsAux_true_of_all_ws :
    ∀ (t : Txt), (∀ c ∈ t, jsWs c = true) → collapseWsAux true t = [] := by
  intro t
  induction t with
  | nil => intro _; rfl
  | cons c cs ih =>
    intro h
    have hc : jsWs c = true := h c (List.mem_cons_self c cs)
    simp [collapseWsAux, hc, ih (fun d hd => h d (List.mem_cons_of_mem c hd))]

lemma trim_collapse_of_all_ws (t : Txt) (h : ∀ c ∈ t, jsWs c = true) :
    trimSpaces (collapseWs t) = [] := by
  cases t with
  | nil => rfl
  | cons c cs =>
    have hc : jsWs c = true := h c (List.mem_cons_self c cs)
    have hcs : collapseWsAux true cs = [] :=
      collapseWsAux_true_of_all_ws cs (fun d hd => h d (List.mem_cons_of_mem c hd))
    unfold collapseWs collapseWsAux
    simp [hc, hcs]
    rfl

lemma mem_collapseWsAux_of_not_ws :
    ∀ (t : Txt) (b : Bool) (c : Char), jsWs c = false → c ∈ t → c ∈ collapseWsAux b t := by
  intro t
  induction t with
  | nil => intro b c _ hm; simp at hm
  | cons a cs ih =>
    intro b c hc hm
    by_cases ha : jsWs a = true
    · have hcs : c ∈ cs := by
        rcases List.mem_cons.mp hm with rfl | hm
        · rw [ha] at hc; cases hc
        · exact hm
      cases b with
      | false =>
        simp [collapseWsAux, ha]
        exact Or.inr (ih true c hc hcs)
      | true =>
        simp [collapseWsAux, ha]
        exact ih true c hc hcs
    · have ha' : jsWs a = false := by
        cases hja : jsWs a
        · rfl
        · exact absurd hja ha
      rcases List.mem_cons.mp hm with rfl | hm
      · simp [collapseWsAux, ha']
      · simp [collapseWsAux, ha']
        exact Or.inr (ih false c hc hm)

lemma mem_dropWhile_of_pred_false {α : Type} (p : α → Bool) :
    ∀ (l : List α) (a : α), p a = false → a ∈ l → a ∈ l.dropWhile p := by
  intro l
  induction l with
  | nil => intro a _ hm; simp at hm
  | cons b rest ih =>
    intro a ha hm
    by_cases hb : p b = true
    · have hr : a ∈ rest := by
        rcases List.mem_cons.mp hm with rfl | hm
        · rw [hb] at ha; cases ha
        · exact hm
      simp [List.dropWhile, hb]
      exact ih a ha hr
    · have hb' : p b = false := by
        cases hpb : p b
        · rfl
        · exact absurd hpb hb
      simp [List.dropWhile, hb']
      exact List.mem_cons.mp hm

lemma mem_trimSpaces_of_ne_space (t : Txt) (c : Char)
    (hne : (c == ' ') = false) (hm : c ∈ t) : c ∈ trimSpaces t := by
  unfold trimSpaces
  rw [List.mem_reverse]
  refine mem_dropWhile_of_pred_false _ _ c hne ?_
  rw [List.mem_reverse]
  exact mem_dropWhile_of_pred_false _ _ c hne hm

lemma keptTurn_eq_any (t : Txt) : keptTurn t = t.any (fun c => !jsWs c) := by
  cases h : t.any (fun c => !jsWs c) with
  | false =>
    have hall : ∀ c ∈ t, jsWs c = true := by
      intro c hc
      have := List.any_eq_false.mp h c hc
      simpa using this
    unfold keptTurn
    rw [trim_collapse_of_all_ws t hall]
    rfl
  | true =>
    obtain ⟨c, hct, hc⟩ := List.any_eq_true.mp h
    have hcf : jsWs c = false := by simpa using hc
    have hcsp : (c == ' ') = false := by
      cases hsp : c == ' '
      · rfl
      · have : c = ' ' := by simpa using hsp
        subst this
        rw [show jsWs ' ' = true from rfl] at hcf
        cases hcf
    have hmem : c ∈ trimSpaces (collapseWs t) :=
      mem_trimSpaces_of_ne_space _ c hcsp (mem_collapseWsAux_of_not_ws t false c hcf hct)
    unfold keptTurn
    have : 0 < (trimSpaces (collapseWs t)).length :=
      List.length_pos.mpr (List.ne_nil_of_mem hmem)
    simp [this]

lemma trimmedHistory_eq_drop (h : List ChatMessage) :
    trimmedHistory h = h.drop (h.length - maxHistoryLength) := by
  unfold trimmedHistory
  split
  · rfl
  · rename_i hle
    have : h.length - maxHistoryLength = 0 := by omega
    rw [this, List.drop_zero]

lemma trimmedHistory_length_le (h : List ChatMessage) :
    (trimmedHistory h).length ≤ maxHistoryLength := by
  unfold trimmedHistory
  split
  · rename_i hgt
    rw [List.length_drop]
    omega
  · rename_i hle
    omega

/-! ## Claim theorems -/

/-- C1: in AwaitingAnswer(i) with a sufficient verdict (needMoreInfo =
false), the engine moves to AwaitingAnswer(j) for the smallest j > i whose
question id is not in the post-coverage answered set, and fires the
completion (summarization) trigger when no such j exists. -/
theorem C1_advance_to_next_unanswered (st : EngineState) (content : Txt)
    (analysis : AnalysisResponse) (ai : LLMResponse) (cq : Question)
    (hcq : st.questionnaire.get? st.currentQuestionIndex = some cq)
    (hsuff : ai.needMoreInfo = false) :
    (∀ (j : Nat) (qj : Question), st.currentQuestionIndex < j →
        st.questionnaire.get? j = some qj →
        qj.id ∉ postAnsweredIds st content analysis →
        (∀ (k : Nat) (qk : Question), st.currentQuestionIndex < k → k < j →
          st.questionnaire.get? k = some qk →
          qk.id ∈ postAnsweredIds st content analysis) →
        (handleSendMessage st content analysis ai).state.currentQuestionIndex = j
          ∧ (handleSendMessage st content analysis ai).summaryTriggers = 0)
    ∧ ((∀ (k : Nat) (qk : Question), st.currentQuestionIndex < k →
          st.questionnaire.get? k = some qk →
          qk.id ∈ postAnsweredIds st content analysis) →
        1 ≤ (handleSendMessage st content analysis ai).summaryTriggers) := by
  constructor
  · intro j qj hij hj hnot hmid
    obtain ⟨hjlt, -⟩ := List.get?_eq_some.mp hj
    have hfind : findNext st.questionnaire (postAnsweredIds st content analysis)
        (st.currentQuestionIndex + 1) = j :=
      findNext_eq_of_least st.questionnaire (postAnsweredIds st content analysis) qj
        (j - (st.currentQuestionIndex + 1)) (st.currentQuestionIndex + 1) j rfl
        (by omega) hj hnot
        (fun k qk hk1 hk2 hk3 => hmid k qk (by omega) hk2 hk3)
    have hnotle : ¬ st.questionnaire.length ≤ j := by omega
    have hlast : ¬ st.questionnaire.length ≤ st.currentQuestionIndex + 1 := by omega
    constructor
    · rw [step_index_of_sufficient st content analysis ai cq hcq hsuff, hfind,
        if_neg hnotle]
    · rw [step_triggers_some st content analysis ai cq hcq, hfind]
      simp [hsuff, hnotle, hlast]
  · intro hall
    have hfind : st.questionnaire.length ≤
        findNext st.questionnaire (postAnsweredIds st content analysis)
          (st.currentQuestionIndex + 1) :=
      findNext_ge_length_of_all st.questionnaire (postAnsweredIds st content analysis)
        (st.currentQuestionIndex + 1)
        (fun k qk hk1 hk2 => hall k qk (by omega) hk2)
    rw [step_triggers_some st content analysis ai cq hcq, hsuff]
    simp [hfind]

/-- C1 witness: three-question bank, coverage marks Q2, sufficient verdict
on Q1: the engine jumps from index 0 straight to index 2 with no
completion trigger. -/
theorem C1_advance_to_next_unanswered_witness :
    (handleSendMessage threeQuestionState sleeplessUtterance coverageSecond
      sufficientVerdict).state.currentQuestionIndex = 2
    ∧ (handleSendMessage threeQuestionState sleeplessUtterance coverageSecond
      sufficientVerdict).summaryTriggers = 0 := by
  refine (C1_advance_to_next_unanswered threeQuestionState sleeplessUtterance
    coverageSecond sufficientVerdict q1 rfl rfl).1 2 q3 (by decide) rfl (by decide) ?_
  intro k qk hk1 hk2 hget
  have hk : k = 1 := by omega
  subst hk
  have hq : (some q2 : Option Question) = some qk := hget
  have hqk : q2 = qk := by injection hq
  rw [← hqk]
  decide

/-- C2 counterexample: two-question bank, the coverage classifier returns
both ids (so the current question is covered), but the sufficiency verdict
is insufficient — the engine stays on index 0 and does not complete,
contradicting the claimed advance-on-coverage behaviour. -/
theorem C2_no_advance_on_insufficient_counterexample :
    "Q1" ∈ postAnsweredIds twoQuestionState sleeplessUtterance coverageBoth
    ∧ "Q2" ∈ postAnsweredIds twoQuestionState sleeplessUtterance coverageBoth
    ∧ (handleSendMessage twoQuestionState sleeplessUtterance coverageBoth
        insufficientVerdict).state.currentQuestionIndex = 0
    ∧ (handleSendMessage twoQuestionState sleeplessUtterance coverageBoth
        insufficientVerdict).summaryTriggers = 0 := by decide

/-- C2 amended: the engine advances or completes only on a sufficient
verdict (needMoreInfo = false); coverage of the current question alone
never triggers an advance.  With an insufficient verdict (and no
last-question isComplete flag) the pointer and completion state are
unchanged; with a sufficient verdict and every bank question covered, the
engine completes after the turn. -/
theorem C2_advance_only_on_sufficient (st : EngineState) (content : Txt)
    (analysis : AnalysisResponse) (ai : LLMResponse) (cq : Question)
    (hcq : st.questionnaire.get? st.currentQuestionIndex = some cq) :
    (ai.needMoreInfo = true → ai.isComplete = false →
      (handleSendMessage st content analysis ai).state.currentQuestionIndex
          = st.currentQuestionIndex
        ∧ (handleSendMessage st content analysis ai).summaryTriggers = 0)
    ∧ (ai.needMoreInfo = false →
      (∀ (k : Nat) (qk : Question), st.currentQuestionIndex < k →
        st.questionnaire.get? k = some qk →
        qk.id ∈ postAnsweredIds st content analysis) →
      1 ≤ (handleSendMessage st content analysis ai).summaryTriggers) := by
  constructor
  · intro hne hnc
    refine ⟨step_index_of_insufficient st content analysis ai hne, ?_⟩
    rw [step_triggers_some st content analysis ai cq hcq, hne, hnc]
    simp
  · intro hsuff hall
    have hfind : st.questionnaire.length ≤
        findNext st.questionnaire (postAnsweredIds st content analysis)
          (st.currentQuestionIndex + 1) :=
      findNext_ge_length_of_all st.questionnaire (postAnsweredIds st content analysis)
        (st.currentQuestionIndex + 1)
        (fun k qk hk1 hk2 => hall k qk (by omega) hk2)
    rw [step_triggers_some st content analysis ai cq hcq, hsuff]
    simp [hfind]

/-- C2 amended witness: Scenario A with a sufficient verdict — both
questions covered by one utterance, the engine completes in one turn; and
the insufficient case leaves the pointer unchanged. -/
theorem C2_advance_only_on_sufficient_witness :
    ((handleSendMessage twoQuestionState sleeplessUtterance coverageBoth
        insufficientVerdict).state.currentQuestionIndex = 0
      ∧ (handleSendMessage twoQuestionState sleeplessUtterance coverageBoth
        insufficientVerdict).summaryTriggers = 0)
    ∧ 1 ≤ (handleSendMessage twoQuestionState sleeplessUtterance coverageBoth
        sufficientVerdict).summaryTriggers := by
  constructor
  · exact (C2_advance_only_on_sufficient twoQuestionState sleeplessUtterance
      coverageBoth insufficientVerdict q1 rfl).1 rfl rfl
  · refine (C2_advance_only_on_sufficient twoQuestionState sleeplessUtterance
      coverageBoth sufficientVerdict q1 rfl).2 rfl ?_
    intro k qk hk1 hget
    have hk : k = 1 := by
      obtain ⟨hlt, -⟩ := List.get?_eq_some.mp hget
      have : k < 2 := hlt
      omega
    subst hk
    have hq : (some q2 : Option Question) = some qk := hget
    have hqk : q2 = qk := by injection hq
    rw [← hqk]
    decide

/-- C3 counterexample: on a successful oracle parse the response is
returned unvalidated — an oracle answer with an empty formattedAnswers
list yields an output whose length differs from the bank size. -/
theorem C3_unvalidated_success_counterexample :
    (generateSummary [q1] []
      (SummaryAttempt.success ⟨[], "要約"⟩)).formattedAnswers.length
      ≠ [q1].length := by decide

/-- C3 amended: only the fallback path (taken on any summarization oracle
failure) satisfies the guarantees — one FormattedAnswer per bank question,
ids in bank order, non-empty sentinel answers with low confidence; a
successfully parsed oracle response is passed through unchanged and
unvalidated. -/
theorem C3_fallback_guarantees (questions : List Question)
    (history : List ChatMessage) (r : SummaryResponse) :
    (generateSummary questions history SummaryAttempt.failure).formattedAnswers.length
        = questions.length
    ∧ (generateSummary questions history SummaryAttempt.failure).formattedAnswers.map
        (fun fa => fa.questionId) = questions.map (fun q => q.id)
    ∧ (∀ fa ∈ (generateSummary questions history SummaryAttempt.failure).formattedAnswers,
        fa.extractedAnswer ≠ "" ∧ fa.confidence = Confidence.low)
    ∧ generateSummary questions history (SummaryAttempt.success r) = r := by
  refine ⟨?_, ?_, ?_, rfl⟩
  · simp [generateSummary]
  · simp [generateSummary]
  · intro fa hfa
    simp only [generateSummary, List.mem_map] at hfa
    obtain ⟨q, hq, rfl⟩ := hfa
    refine ⟨?_, rfl⟩
    show extractionFailedText ≠ ""
    decide

/-- C3 amended witness: fallback output for a one-question bank has one
entry and its sentinel answer is non-empty with low confidence. -/
theorem C3_fallback_guarantees_witness :
    (generateSummary [q1] [] SummaryAttempt.failure).formattedAnswers.length
        = ([q1] : List Question).length
    ∧ ((⟨"Q1", q1.text, extractionFailedText, Confidence.low⟩ :
          FormattedAnswer).extractedAnswer ≠ ""
        ∧ (⟨"Q1", q1.text, extractionFailedText, Confidence.low⟩ :
          FormattedAnswer).confidence = Confidence.low) :=
  ⟨(C3_fallback_guarantees [q1] [] ⟨[], ""⟩).1,
   (C3_fallback_guarantees [q1] [] ⟨[], ""⟩).2.2.1 _ (by decide)⟩

/-- C4: when the sufficiency oracle fails after exhausting its retries,
generateAIResponse returns the fixed apologetic fallback (after 3
attempts), the verdict is insufficient (needMoreInfo = true), the engine
appends the fallback reply, leaves the question pointer unchanged, fires
no completion trigger and still persists the session during the turn. -/
theorem C4_fallback_keeps_question (st : EngineState) (content : Txt)
    (analysis : AnalysisResponse) (cq : Question)
    (hcq : st.questionnaire.get? st.currentQuestionIndex = some cq) :
    generateAIResponse (fun _ => SuffAttempt.fetchError) = (fallbackLLM, 3)
    ∧ fallbackLLM.needMoreInfo = true
    ∧ (handleSendMessage st content analysis fallbackLLM).state.currentQuestionIndex
        = st.currentQuestionIndex
    ∧ (handleSendMessage st content analysis fallbackLLM).summaryTriggers = 0
    ∧ (handleSendMessage st content analysis fallbackLLM).saves ≠ []
    ∧ (handleSendMessage st content analysis fallbackLLM).state.messages
        = st.messages ++ [⟨Role.user, content⟩, ⟨Role.assistant, fallbackLLM.reply⟩] := by
  refine ⟨rfl, rfl,
    step_index_of_insufficient st content analysis fallbackLLM rfl, ?_,
    step_saves_ne_nil st content analysis fallbackLLM cq hcq,
    step_messages_some st content analysis fallbackLLM cq hcq⟩
  rw [step_triggers_some st content analysis fallbackLLM cq hcq]
  simp [fallbackLLM]

/-- C4 witness: the failure turn on a fresh two-question session leaves the
pointer at 0, persists, and emits the fallback reply. -/
theorem C4_fallback_keeps_question_witness :
    (handleSendMessage twoQuestionState sleeplessUtterance coverageBoth
        fallbackLLM).state.currentQuestionIndex = 0
    ∧ (handleSendMessage twoQuestionState sleeplessUtterance coverageBoth
        fallbackLLM).saves ≠ [] := by
  obtain ⟨-, -, hidx, -, hsaves, -⟩ := C4_fallback_keeps_question twoQuestionState
    sleeplessUtterance coverageBoth q1 rfl
  exact ⟨hidx, hsaves⟩

/-- C5 counterexample: the coverage classifier performs no retry at all —
on a rate-limited (HTTP 429) attempt it stops after exactly one attempt
and returns empty coverage, whereas the claim requires both oracle
operations to retry rate limiting. -/
theorem C5_coverage_no_retry_counterexample :
    (analyzeUserAnswer (CovAttempt.httpError 429)).2 = 1
    ∧ ¬ 2 ≤ (analyzeUserAnswer (CovAttempt.httpError 429)).2
    ∧ (analyzeUserAnswer (CovAttempt.httpError 429)).1 = ⟨[]⟩ := by decide

/-- C5 amended: the sufficiency judgment implements the retry contract —
at most 2 automatic retries (3 attempts), a retryable first attempt
consumes a retry, a success or a non-retryable error ends the call at one
attempt, HTTP 429 / HTTP ≥ 500 / network failure / whitespace-only payload
/ unparseable payload are retryable while other HTTP errors abort — but
the coverage classification performs exactly one attempt with no retry. -/
theorem C5_retry_contract :
    (∀ o : Nat → SuffAttempt, (generateAIResponse o).2 ≤ 3)
    ∧ (∀ o : Nat → SuffAttempt, classifyAttempt (o 0) = AttemptOutcome.retry →
        2 ≤ (generateAIResponse o).2)
    ∧ (∀ (o : Nat → SuffAttempt) (r : LLMResponse),
        classifyAttempt (o 0) = AttemptOutcome.success r → generateAIResponse o = (r, 1))
    ∧ (∀ o : Nat → SuffAttempt, classifyAttempt (o 0) = AttemptOutcome.abort →
        generateAIResponse o = (fallbackLLM, 1))
    ∧ classifyAttempt (SuffAttempt.httpError 429) = AttemptOutcome.retry
    ∧ (∀ status : Nat, 500 ≤ status →
        classifyAttempt (SuffAttempt.httpError status) = AttemptOutcome.retry)
    ∧ classifyAttempt SuffAttempt.fetchError = AttemptOutcome.retry
    ∧ (∀ status : Nat, status ≠ 429 → status < 500 →
        classifyAttempt (SuffAttempt.httpError status) = AttemptOutcome.abort)
    ∧ (∀ c : RawContent, (∀ ch ∈ c.raw, jsWs ch = true) →
        classifyAttempt (SuffAttempt.content c) = AttemptOutcome.retry)
    ∧ (∀ c : RawContent, c.parsed = none →
        classifyAttempt (SuffAttempt.content c) = AttemptOutcome.retry)
    ∧ (∀ a : CovAttempt, (analyzeUserAnswer a).2 = 1) := by
  refine ⟨?_, ?_, ?_, ?_, by decide, classify_httpError_server, by decide,
    classify_httpError_client, classify_content_ws, classify_content_unparsed, ?_⟩
  · intro o
    have h := generateAIResponseLoop_attempts_le o 3 0
    simpa [generateAIResponse, MAX_RETRIES] using h
  · intro o h
    rw [generateAIResponse_unfold o, h]
    rw [if_pos (by decide : (0 : Nat) < MAX_RETRIES)]
    exact generateAIResponseLoop_attempts_ge o 1 1
  · intro o r h
    rw [generateAIResponse_unfold o, h]
  · intro o h
    rw [generateAIResponse_unfold o, h]
  · intro a
    cases a <;> rfl

/-- C5 amended witness: a network failure on attempt 0 consumes a retry;
HTTP 503 is retryable; HTTP 401 aborts immediately. -/
theorem C5_retry_contract_witness :
    2 ≤ (generateAIResponse (fun _ => SuffAttempt.fetchError)).2
    ∧ classifyAttempt (SuffAttempt.httpError 503) = AttemptOutcome.retry
    ∧ classifyAttempt (SuffAttempt.httpError 401) = AttemptOutcome.abort := by
  obtain ⟨-, h2, -, -, -, h500, -, habort, -, -, -⟩ := C5_retry_contract
  exact ⟨h2 (fun _ => SuffAttempt.fetchError) rfl, h500 503 (by omega),
    habort 401 (by omega) (by omega)⟩

/-- C6: the question pointer never decreases — per turn and over any run
of turns (so an index, once left, is never revisited). -/
theorem C6_pointer_monotone :
    (∀ (st : EngineState) (content : Txt) (analysis : AnalysisResponse)
        (ai : LLMResponse),
       st.currentQuestionIndex
         ≤ (handleSendMessage st content analysis ai).state.currentQuestionIndex)
    ∧ (∀ (st : EngineState) (pre post : List TurnInput),
       (runTurns st pre).currentQuestionIndex
         ≤ (runTurns st (pre ++ post)).currentQuestionIndex) := by
  refine ⟨step_index_mono, ?_⟩
  intro st pre post
  rw [runTurns_append]
  exact runTurns_index_mono post (runTurns st pre)

/-- C7 counterexample: triggering completion on a session that is already
completed and already holds a summary re-invokes the summarizer and
overwrites the stored summary — completion is not guarded. -/
theorem C7_regenerates_summary_counterexample :
    completedSession.isCompleted = true
    ∧ completedSession.summary = some "最初の要約"
    ∧ (handleCompleteQuestionnaire completedSession [q1, q2] []
        (SummaryAttempt.success secondSummary)).1.summary = some "二回目の要約"
    ∧ (handleCompleteQuestionnaire completedSession [q1, q2] []
        (SummaryAttempt.success secondSummary)).2 = 1 := by decide

/-- C7 amended: every completion trigger invokes the summarizer exactly
once and marks the session completed, regardless of whether a summary
already exists; re-triggering with the same oracle outcome is idempotent
in value, but the summary is regenerated (overwritten) on every call. -/
theorem C7_completion_always_summarizes (session : Session)
    (questions : List Question) (history : List ChatMessage)
    (attempt : SummaryAttempt) :
    (handleCompleteQuestionnaire session questions history attempt).2 = 1
    ∧ (handleCompleteQuestionnaire session questions history attempt).1.isCompleted = true
    ∧ (handleCompleteQuestionnaire
         (handleCompleteQuestionnaire session questions history attempt).1
         questions history attempt).1
       = (handleCompleteQuestionnaire session questions history attempt).1 :=
  ⟨rfl, rfl, rfl⟩

/-- C8 counterexample: the coverage classifier's ids are recorded without
validation — a bogus id ends up in answeredQuestionIds although no bank
question carries it. -/
theorem C8_invalid_id_recorded_counterexample :
    "BOGUS" ∈ (handleSendMessage twoQuestionState sleeplessUtterance bogusCoverage
        sufficientVerdict).state.session.answeredQuestionIds
    ∧ (∀ q ∈ twoQuestionState.questionnaire, q.id ≠ "BOGUS") := by decide

/-- C8 amended: the invariant is conditional on the oracle — when every id
returned by the coverage classifier is a bank id and the invariant held
before the turn, every id in answeredQuestionIds after the turn is still a
bank id (the engine itself performs no validation). -/
theorem C8_answered_ids_valid_when_oracle_valid (st : EngineState) (content : Txt)
    (analysis : AnalysisResponse) (ai : LLMResponse)
    (hora : ∀ a ∈ analysis.answeredQuestions, ∃ q ∈ st.questionnaire, q.id = a)
    (hpre : ∀ a ∈ st.session.answeredQuestionIds, ∃ q ∈ st.questionnaire, q.id = a) :
    ∀ a ∈ (handleSendMessage st content analysis ai).state.session.answeredQuestionIds,
      ∃ q ∈ st.questionnaire, q.id = a := by
  intro a ha
  rw [step_answeredIds] at ha
  unfold postAnsweredIds at ha
  cases hcq : st.questionnaire.get? st.currentQuestionIndex with
  | none =>
    rw [hcq] at ha
    exact hpre a ha
  | some cq =>
    rw [hcq] at ha
    exact coverageFold_ids_mem st.questionnaire cq.id content
      (fun b => ∃ q ∈ st.questionnaire, q.id = b)
      analysis.answeredQuestions _ hpre hora a ha

/-- C8 amended witness: with the classifier returning the valid id Q2 on a
fresh session, every recorded id is a bank id — in particular Q2. -/
theorem C8_answered_ids_valid_when_oracle_valid_witness :
    ∃ q ∈ twoQuestionState.questionnaire, q.id = "Q2" :=
  C8_answered_ids_valid_when_oracle_valid twoQuestionState sleeplessUtterance
    coverageSecond sufficientVerdict (by decide) (by decide) "Q2" (by decide)

/-- C9 counterexample: a turn consisting solely of U+0085 (NEL), which is
whitespace under the full Unicode White_Space property, is NOT dropped
from the oracle context — the source whitespace class omits U+0085. -/
theorem C9_nel_turn_retained_counterexample :
    cleanedHistory [nelMessage] = [nelMessage]
    ∧ nelMessage.content ≠ []
    ∧ nelMessage.content.all unicodeWs = true := by decide

/-- C9 amended: the context handed to the sufficiency oracle is the most
recent 10 turns with turns that are whitespace-only under the source's
whitespace class (all Unicode whitespace except U+0085, plus U+FEFF)
dropped, and each kept turn truncated to at most 200 code points plus a
3-character marker; every kept turn retains a non-whitespace character. -/
theorem C9_context_window (h : List ChatMessage) :
    (cleanedHistory h).length ≤ maxHistoryLength
    ∧ cleanedHistory h
        = ((h.drop (h.length - maxHistoryLength)).filter
            (fun m => m.content.any (fun c => !jsWs c))).map truncateMsg
    ∧ (∀ m ∈ cleanedHistory h,
        m.content.length ≤ 203 ∧ m.content.any (fun c => !jsWs c) = true) := by
  have heq : cleanedHistory h
      = ((h.drop (h.length - maxHistoryLength)).filter
          (fun m => m.content.any (fun c => !jsWs c))).map truncateMsg := by
    unfold cleanedHistory
    rw [trimmedHistory_eq_drop]
    have hf : (fun m : ChatMessage => keptTurn m.content)
        = (fun m : ChatMessage => m.content.any (fun c => !jsWs c)) :=
      funext (fun m => keptTurn_eq_any m.content)
    rw [hf]
  refine ⟨?_, heq, ?_⟩
  · unfold cleanedHistory
    rw [List.length_map]
    calc (List.filter _ (trimmedHistory h)).length
        ≤ (trimmedHistory h).length := List.length_filter_le _ _
      _ ≤ maxHistoryLength := trimmedHistory_length_le h
  · intro m hm
    rw [heq] at hm
    obtain ⟨m', hm', rfl⟩ := List.mem_map.mp hm
    have hp : m'.content.any (fun c => !jsWs c) = true :=
      (List.mem_filter.mp hm').2
    by_cases hlen : m'.content.length > 200
    · unfold truncateMsg
      rw [if_pos hlen]
      constructor
      · simp [List.length_take]
      · have hdots : ("...".data).any (fun c => !jsWs c) = true := by decide
        simp [List.any_append, hdots]
    · unfold truncateMsg
      rw [if_neg hlen]
      exact ⟨by omega, hp⟩

/-- C9 amended witness: a short non-blank turn passes through the context
cleaner: its length is within bounds and it contains a non-whitespace
character. -/
theorem C9_context_window_witness :
    helloMessage.content.length ≤ 203
    ∧ helloMessage.content.any (fun c => !jsWs c) = true :=
  (C9_context_window [helloMessage]).2.2 helloMessage (by decide)

/-- C10: saveSession is replace-by-id — after saving, getSession on the
saved id returns the saved session; the stored count is unchanged when the
id existed and the session is appended when it did not; sessions with
other ids are untouched in value and order. -/
theorem C10_save_replace_by_id (s : Session) (l : List Session) :
    getSession s.sessionId (saveSession s l) = some s
    ∧ ((∃ x ∈ l, x.sessionId = s.sessionId) → (saveSession s l).length = l.length)
    ∧ ((∀ x ∈ l, x.sessionId ≠ s.sessionId) → saveSession s l = l ++ [s])
    ∧ (saveSession s l).filter (fun x => !(x.sessionId == s.sessionId))
        = l.filter (fun x => !(x.sessionId == s.sessionId)) :=
  ⟨getSession_saveSession s l, saveSession_length_of_exists s l,
   saveSession_of_forall_ne s l, saveSession_filter_ne s l⟩

/-- C10 witness: saving a session whose id is already stored keeps the
count at 2 and getSession returns the new record; saving a session with a
fresh id appends it. -/
theorem C10_save_replace_by_id_witness :
    getSession "session-A" (saveSession storeSessionA2 [storeSessionA, storeSessionB])
        = some storeSessionA2
    ∧ (saveSession storeSessionA2 [storeSessionA, storeSessionB]).length = 2
    ∧ saveSession storeSessionB [storeSessionA] = [storeSessionA] ++ [storeSessionB] := by
  obtain ⟨hget, hlen, -, -⟩ :=
    C10_save_replace_by_id storeSessionA2 [storeSessionA, storeSessionB]
  obtain ⟨-, -, happ, -⟩ := C10_save_replace_by_id storeSessionB [storeSessionA]
  exact ⟨hget, hlen ⟨storeSessionA, by decide, by decide⟩, happ (by decide)⟩

end AiChatAvatar
